import Mathlib

/-!
Shallow embedding of the sqlaux mapping registry and its consumers
(`MapStruct`/`initmap`, `MapType`, `Scan`/`scanField`, `Buildstr`/
`valuebuild`/`setbuild`/`buildstr`), translated from the Go source.

Go strings are modelled as `List Char` (`GStr`) with structural
implementations of the `strings` package operations used by the code,
so that every definition evaluates by `rfl`/`decide` on concrete input.
The separators the code passes to `strings.Split`/`strings.LastIndex`
(`Op = "="` and `"."`) are single characters in the deployed
configuration, and are modelled as such.
-/

namespace Sqlaux

/-- A Go string. -/
abbrev GStr := List Char

/-- Literal helper: a `GStr` from a Lean string literal. -/
def gs (s : String) : GStr := s.data

/-- Go `strings.Split(s, sep)` for a one-character separator: always
returns at least one (possibly empty) piece. -/
def splitCh (p : Char → Bool) : GStr → List GStr
  | [] => [[]]
  | c :: cs =>
      if p c then [] :: splitCh p cs
      else
        match splitCh p cs with
        | g :: gg => (c :: g) :: gg
        | [] => [[c]]

/-- ASCII whitespace, the fragment of `unicode.IsSpace` the claims
exercise. -/
def isGoSpace (c : Char) : Bool :=
  c = ' ' ∨ c = '\t' ∨ c = '\n' ∨ c = '\r' ∨ c = '\x0b' ∨ c = '\x0c'

/-- Go `strings.Fields`: split around whitespace, dropping empty pieces. -/
def goFields (s : GStr) : List GStr :=
  (splitCh isGoSpace s).filter (· ≠ [])

/-- Go `strings.ToLower`, on the ASCII range the code relies on. -/
def goLower (s : GStr) : GStr := s.map Char.toLower

/-- Go `%q` escaping of one character (the claims only exercise plain
characters; the common escapes are modelled). -/
def goQuoteChar (c : Char) : GStr :=
  if c = '"' then ['\\', '"']
  else if c = '\\' then ['\\', '\\']
  else if c = '\n' then ['\\', 'n']
  else if c = '\t' then ['\\', 't']
  else if c = '\r' then ['\\', 'r']
  else [c]

/-- Go `%q` of a string. -/
def goQuote (s : GStr) : GStr :=
  '"' :: (s.map goQuoteChar).flatten ++ ['"']

/-- Decimal digits of a natural number. -/
def natChars (n : Nat) : GStr := (Nat.repr n).data

/-- Go `%d` of a signed integer. -/
def intChars (i : Int) : GStr :=
  if i < 0 then '-' :: natChars i.natAbs else natChars i.natAbs

/-- A Go type as seen by `reflect` in the parts of sqlaux under study:
either a non-struct ("prim", carrying its type string) or a struct with
its name and field list.  Each field is `(name, dbTag, offset, type)`:
its Go name, the value of its `db` struct tag (`tt.Tag.Get(Tag)`), its
byte offset within the struct, and its type.  The name of a struct
doubles as both `Type.Name()` and `Type.String()`: the two coincide up
to package qualifier for the named types sqlaux handles, and the only
place the qualified form matters is the `"time.Time"` comparison in
`initmap`, for which the model uses the qualified name. -/
inductive GoType where
  | prim (name : GStr)
  | strukt (name : GStr) (fields : List (GStr × GStr × Nat × GoType))

/-- One struct field of the model: `(name, dbTag, offset, type)`. -/
abbrev GoField := GStr × GStr × Nat × GoType

/-- The `Type.Name()` / `Type.String()` of a model type. -/
def GoType.goName : GoType → GStr
  | .prim n => n
  | .strukt n _ => n

/-- Whether `Kind() == reflect.Struct`. -/
def GoType.isStrukt : GoType → Bool
  | .prim _ => false
  | .strukt _ _ => true

/-- Equality test on model types, standing for `reflect.Type` identity
(`==` on `reflect.Type` values in the Go source). -/
def GoType.beq : GoType → GoType → Bool
  | .prim a, .prim b => a == b
  | .strukt a fs, .strukt b gs2 => a == b && beqFields fs gs2
  | _, _ => false
where
  beqFields : List GoField → List GoField → Bool
  | [], [] => true
  | (n, t, o, ty) :: fs, (n2, t2, o2, ty2) :: gg =>
      n == n2 && t == t2 && o == o2 && GoType.beq ty ty2 && beqFields fs gg
  | _, _ => false

/-- The `interface{}`-typed `name` member of Go's `entryT`: `nil` for
column→field entries, the column name (string) for field→column
entries, the field-name list for struct marker entries, and a
destination index (int) when `entryT` is reused by `scanField`. -/
inductive EName where
  | nichts
  | str (s : GStr)
  | strs (l : List GStr)
  | idx (n : Nat)
  deriving DecidableEq

/-- Go `entryT`: mapping entry info.  `typ` is `none` for the `nil`
`reflect.Type` of marker entries. -/
structure entryT where
  name : EName
  offset : Nat
  typ : Option GoType

/-- The zero value of `entryT`. -/
def zeroEntry : entryT := ⟨.nichts, 0, none⟩

/-- The process-wide `mapping` map, modelled as an association list with
in-place overwrite on insert (Go map semantics; iteration order never
matters for the operations modelled). -/
abbrev Mapping := List (GStr × entryT)

/-- Map lookup `mapping[k]`. -/
def findm : Mapping → GStr → Option entryT
  | [], _ => none
  | (k, v) :: rest, key => if k = key then some v else findm rest key

/-- Map write `mapping[k] = v`: overwrite in place, else append. -/
def insm : Mapping → GStr → entryT → Mapping
  | [], k, v => [(k, v)]
  | (k0, v0) :: rest, k, v =>
      if k0 = k then (k, v) :: rest else (k0, v0) :: insm rest k v

/-- The `typemap` natural→wire type substitution table. -/
abbrev Typemap := List (GoType × GoType)

/-- Map lookup `typemap[t]` (`reflect.Type` keys compared with
`GoType.beq`, the query always on the left). -/
def findt : Typemap → GoType → Option GoType
  | [], _ => none
  | (k, v) :: rest, key => if key.beq k then some v else findt rest key

/-- Map write `typemap[k] = v`. -/
def inst' : Typemap → GoType → GoType → Typemap
  | [], k, v => [(k, v)]
  | (k0, v0) :: rest, k, v =>
      if k.beq k0 then (k, v) :: rest else (k0, v0) :: inst' rest k v

/-- The struct tag configuration: `Tag = "db"` is applied when building
the `dbTag` component of a field; `Key` and `Op` are the recognized key
and (single-character) separator. -/
def Key : GStr := gs "col"

def Op : Char := '='

/-- Outcome of a Go function in the model: normal value, returned
error, or runtime panic. -/
inductive GoResult (α : Type) where
  | ok (a : α)
  | err (msg : GStr)
  | crash (msg : GStr)
  deriving DecidableEq

/-- The tag-scanning loop of `initmap` (`vs := strings.Fields(tags);
for _, v := range vs { fc := strings.Split(v, Op); if fc[0] == Key
{ col = fc[1]; got = true; break } }`).  Returns `ok (some c)` when a
`col` value was found, `ok none` when not (`got` stays false), and
`crash` when the access `fc[1]` is out of range. -/
def tagScan : List GStr → GoResult (Option GStr)
  | [] => .ok none
  | v :: vs =>
      match splitCh (· = Op) v with
      | c0 :: rest =>
          if c0 = Key then
            match rest with
            | c1 :: _ => .ok (some c1)
            | [] => .crash (gs "runtime error: index out of range [1] with length 1")
          else tagScan vs
      | [] => tagScan vs

/-- Tag handling of one field: Go runs the scan only when the tag string
is non-empty. -/
def parseTag (tags : GStr) : GoResult (Option GStr) :=
  if tags = [] then .ok none else tagScan (goFields tags)

/-- The split `dot := strings.Index(s, ".")`: `none` when `s` has no dot, else
the parts before and after the first dot (`s[:dot]` and `s[dot+1:]`). -/
def splitOuter (s : GStr) : Option (GStr × GStr) :=
  match splitCh (· = '.') s with
  | [_] => none
  | x :: rest => some (x, (rest.intersperse ['.']).flatten)
  | [] => none

/-- The leaf branch of `initmap`'s field loop (the `else` of the
recursive-struct test): validates `col`, writes the field→column entry
`"0."+s+"."+name`, forms the column→field key `sss` from the outermost
struct name, checks it for a duplicate and writes it.  Returns the
field-path element appended to `fs` and the updated mapping. -/
def initLeaf (s : GStr) (fname : GStr) (off : Nat) (col : GStr)
    (nt : GoType) (m : Mapping) : GoResult (List GStr) × Mapping :=
  if col = [] ∨ goLower col ≠ col then
    (.err (s ++ gs "." ++ fname ++ gs " bad tagged 'col'"), m)
  else
    let m1 := insm m (gs "0." ++ s ++ gs "." ++ fname) ⟨.str col, off, some nt⟩
    let sss : GStr :=
      match splitOuter s with
      | none => gs "1." ++ s ++ gs "." ++ col
      | some (outer, _) => gs "1." ++ outer ++ gs "." ++ col
    let fsElem : GStr :=
      match splitOuter s with
      | none => fname
      | some (_, rest) => rest ++ gs "." ++ fname
    if (findm m1 sss).isSome then
      (.err (goQuote s ++ gs " duplicate column map " ++ goQuote col), m1)
    else (.ok [fsElem], insm m1 sss ⟨.nichts, off, some nt⟩)

/-- First character uppercase: `unicode.IsUpper([]rune(name)[0])`. -/
def isExported (s : GStr) : Bool :=
  match s with
  | [] => false
  | c :: _ => c.isUpper

mutual

/-- Go `initmap`: walk the fields of struct `s` (field list `flds`) at
global offset `b`, threading the mapping.  Returns the collected field
names and the mapping as mutated so far — also on error and panic,
since the Go function mutates the global map in place. -/
def initmapFs (tm : Typemap) (s : GStr) (b : Nat) :
    List GoField → Mapping → GoResult (List GStr) × Mapping
  | [], m => (.ok [], m)
  | (fname, ftag, foff, fty) :: rest, m =>
      match initmapF tm s b fname ftag foff fty m with
      | (.ok fs1, m1) =>
          match initmapFs tm s b rest m1 with
          | (.ok fs2, m2) => (.ok (fs1 ++ fs2), m2)
          | other => other
      | other => other
  termination_by structural x => x

/-- One iteration of `initmap`'s field loop, for a field
`(fname, ftag, foff, fty)`: skip non-exported fields, resolve the wire
type through `typemap`, read the tag, then either recurse into a
nested struct (no tagged column, struct kind, not `time.Time`) or
create the leaf entries. -/
def initmapF (tm : Typemap) (s : GStr) (b : Nat) (fname ftag : GStr)
    (foff : Nat) (fty : GoType) (m : Mapping) :
    GoResult (List GStr) × Mapping :=
  if ¬ isExported fname then (.ok [], m)
  else
    let nt := (findt tm fty).getD fty
    match parseTag ftag with
    | .crash msg => (.crash msg, m)
    | .err msg => (.err msg, m)
    | .ok (some c) => initLeaf s fname (b + foff) c nt m
    | .ok none =>
        match fty with
        | .strukt nm flds2 =>
            if nm ≠ gs "time.Time" then
              initmapFs tm (s ++ gs "." ++ fname) (b + foff) flds2 m
            else initLeaf s fname (b + foff) (goLower fname) nt m
        | .prim _ => initLeaf s fname (b + foff) (goLower fname) nt m
  termination_by structural fty

end

/-- Go `MapStruct` (the `isinit()` caller check is an out-of-band runtime
condition and is assumed to pass): registers each sample in turn,
aborting on the first failure with the mapping as mutated so far; a
successful walk is sealed with the struct marker entry. -/
def MapStructGo (tm : Typemap) : List GoType → Mapping → GoResult Unit × Mapping
  | [], m => (.ok (), m)
  | d :: rest, m =>
      match d with
      | .prim n => (.err (gs "MapStruct: invalid struct " ++ goQuote n), m)
      | .strukt s flds =>
          if s = [] then (.err (gs "MapStruct: invalid struct " ++ goQuote s), m)
          else if (findm m s).isSome then
            (.err (gs "MapStruct: " ++ goQuote s ++ gs " already mapped"), m)
          else
            match initmapFs tm s 0 flds m with
            | (.ok fs, m1) => MapStructGo tm rest (insm m1 s ⟨.strs fs, 0, none⟩)
            | (.err e, m1) => (.err (gs "MapStruct: " ++ e), m1)
            | (.crash e, m1) => (.crash e, m1)

/-- The `v.typ == ov` comparison on the `reflect.Type` member of an entry
(a `nil` type never compares equal to a real type). -/
def typIs (t : Option GoType) (o : GoType) : Bool :=
  match t with
  | none => false
  | some ty => ty.beq o

/-- Go `MapType`'s retroactive rewrite loop: every mapping entry whose type
equals the natural type gets the wire type instead. -/
def rewriteT (o s' : GoType) (m : Mapping) : Mapping :=
  m.map fun kv =>
    if typIs kv.2.typ o then (kv.1, ⟨kv.2.name, kv.2.offset, some s'⟩) else kv

/-- The entry rewrite `MapType` applies to one registry value. -/
def rewE (o s' : GoType) (v : entryT) : entryT :=
  if typIs v.typ o then ⟨v.name, v.offset, some s'⟩ else v

/-- Go `MapType` (again assuming the `isinit()` check passes): rejects an
already-substituted natural type, checks convertibility through the
oracle `conv` standing for `reflect.Type.ConvertibleTo`, then records
the substitution and rewrites existing entries. -/
def MapTypeGo (conv : GoType → GoType → Bool) (orig self : GoType)
    (tm : Typemap) (m : Mapping) : GoResult Unit × Typemap × Mapping :=
  if (findt tm orig).isSome then
    (.err (gs "MapType: type " ++ goQuote orig.goName ++ gs " already mapped"), tm, m)
  else if ¬ conv orig self then
    (.err (gs "MapType: " ++ goQuote orig.goName ++ gs " not convertible to " ++
      goQuote self.goName), tm, m)
  else (.ok (), inst' tm orig self, rewriteT orig self m)

/-! ## Result decoder: `scanField` and `Scan` -/

/-- The `strings.LastIndex(c, ".")` handling of one result column: strip a
leading `table.` qualifier (everything up to the last dot) and
lowercase. -/
def stripQualLower (c : GStr) : GStr :=
  goLower ((splitCh (· = '.') c).getLastD [])

/-- The matching loop of `scanField` over the remaining columns.  `j`
is the current destination index and `stru` the current destination's
struct name (always `ts[j]`); `ts` is the full name list.  An empty
column advances unconditionally (breaking out, and so failing, when no
destination is left); a named column resolves against the current
destination, else advances once and retries, else fails naming the
column.  Resolved positions carry `(destination index, offset, wire
type)`; delimiter positions keep the zero entry. -/
def sfLoop (mp : Mapping) (ts : List GStr) :
    List GStr → Nat → GStr → GoResult (List entryT)
  | [], _, _ => .ok []
  | c :: rest, j, stru =>
      if c = [] then
        if j + 1 = ts.length then
          .err (gs "column " ++ fmtCols (c :: rest) ++ gs " has no mapping")
        else
          match sfLoop mp ts rest (j + 1) (ts.getD (j + 1) []) with
          | .ok r => .ok (zeroEntry :: r)
          | other => other
      else
        let cl := stripQualLower c
        match findm mp (gs "1." ++ stru ++ gs "." ++ cl) with
        | some v =>
            match sfLoop mp ts rest j stru with
            | .ok r => .ok (⟨.idx j, v.offset, v.typ⟩ :: r)
            | other => other
        | none =>
            if j + 1 = ts.length then
              .err (gs "column " ++ goQuote cl ++ gs " has no mapping")
            else
              let stru2 := ts.getD (j + 1) []
              match findm mp (gs "1." ++ stru2 ++ gs "." ++ cl) with
              | some v =>
                  match sfLoop mp ts rest (j + 1) stru2 with
                  | .ok r => .ok (⟨.idx (j + 1), v.offset, v.typ⟩ :: r)
                  | other => other
              | none => .err (gs "column " ++ goQuote cl ++ gs " has no mapping")
where
  /-- Go `%v` of the suffix `col[i:]` of the column slice. -/
  fmtCols (l : List GStr) : GStr :=
    '[' :: ((l.intersperse [' ']).flatten) ++ [']']

/-- Go `scanField(rows, ts)`: resolve the column list of the cursor against
the destination struct names (`ts[j].Name()`), starting at the first
destination. -/
def scanFieldGo (mp : Mapping) (cols : List GStr) (ts : List GStr) :
    GoResult (List entryT) :=
  sfLoop mp ts cols 0 (ts.getD 0 [])

/-- A freshly allocated struct instance of the decoder, modelled as the
writes performed into it: byte offset → stored raw value. -/
abbrev SInst := List (Nat × GStr)

/-- One slot write of `rows.Scan` through a cached pointer. -/
def writeInst (inst : SInst) (off : Nat) (v : GStr) : SInst :=
  match inst with
  | [] => [(off, v)]
  | (o, w) :: rest => if o = off then (off, v) :: rest else (o, w) :: writeInst rest off v

/-- A driver conversion oracle: given the cached wire type of a slot
(`none` for the `nil` type of a zero entry, which never occurs for a
bound column) and a raw column value, produce the stored value or a
conversion error.  It abstracts `database/sql`'s per-column convert
step inside `rows.Scan`. -/
abbrev ConvFn := Option GoType → GStr → GoResult GStr

/-- One whole-row decode (`rows.Scan(ptr...)`): walk the cached
references left to right; a delimiter position converts into the shared
throwaway `*string` target; a bound position of destination `j` writes
the converted value at the cached offset of instance `j`.  Aborts on
the first conversion failure or on a column-count mismatch. -/
def scanRowGo (convert : ConvFn) :
    List entryT → List GStr → List SInst → GoResult (List SInst)
  | [], [], tmp => .ok tmp
  | r :: ref, c :: cs, tmp =>
      match r.name with
      | .idx j =>
          match convert r.typ c with
          | .ok v =>
              scanRowGo convert ref cs (tmp.set j (writeInst (tmp.getD j []) r.offset v))
          | .err e => .err e
          | .crash e => .crash e
      | _ =>
          match convert (some (.prim (gs "string"))) c with
          | .ok _ => scanRowGo convert ref cs tmp
          | .err e => .err e
          | .crash e => .crash e
  | _, _, _ => .err (gs "sql: expected column count mismatch")

/-- The row loop of `Scan`: for each row allocate one fresh instance
per destination, append them to the accumulators, decode the row into
them. -/
def scanRowsGo (convert : ConvFn) (ref : List entryT) (l : Nat) :
    List (List GStr) → List (List SInst) → GoResult (List (List SInst))
  | [], acc => .ok acc
  | row :: rest, acc =>
      match scanRowGo convert ref row (List.replicate l []) with
      | .ok filled =>
          scanRowsGo convert ref l rest ((acc.zip filled).map fun p => p.1 ++ [p.2])
      | .err e => .err e
      | .crash e => .crash e

/-- The external result cursor: its column names, its rows' raw values,
and its terminal error state (`rows.Err()`). -/
structure Rows where
  columns : List GStr
  data : List (List GStr)
  err : Option GStr

/-- One caller-supplied destination handle `*[]*struct`.
`slicePtrOK` models the `strings.HasPrefix(t.String(), "*[]*")` test on
the handle's type; `elemType` is `t.Elem().Elem().Elem()`; `value` is
the current content of the pointed-to slice, `none` standing for a nil
slice. -/
structure Dest where
  slicePtrOK : Bool
  elemType : GoType
  value : Option (List SInst)

/-- The destination shape test of `Scan`. -/
def destBad (d : Dest) : Bool := ¬ d.slicePtrOK ∨ ¬ d.elemType.isStrukt

/-- Index of the first destination failing the shape test. -/
def firstBad : List Dest → Nat → Option Nat
  | [], _ => none
  | d :: rest, i => if destBad d then some i else firstBad rest (i + 1)

/-- Go `Scan`: validate the destinations, resolve the column references
once, decode all rows, check the cursor's terminal error, and only then
overwrite every destination with its accumulated (possibly empty,
always non-nil) slice.  The second component is the state of the
caller's destination handles when the call returns. -/
def ScanGo (convert : ConvFn) (mp : Mapping) (rows : Rows)
    (dest : List Dest) : GoResult Unit × List Dest :=
  if dest.length = 0 then (.err (gs "Scan: no dest argument"), dest)
  else
    match firstBad dest 0 with
    | some i =>
        (.err (gs "Scan: dest[" ++ natChars i ++ gs "] not like *[]*struct"), dest)
    | none =>
        match scanFieldGo mp rows.columns (dest.map fun d => d.elemType.goName) with
        | .err e => (.err (gs "Scan: " ++ e), dest)
        | .crash e => (.crash e, dest)
        | .ok ref =>
            match scanRowsGo convert ref dest.length rows.data
                (List.replicate dest.length []) with
            | .err e => (.err (gs "Scan: " ++ e), dest)
            | .crash e => (.crash e, dest)
            | .ok acc =>
                match rows.err with
                | some e => (.err (gs "Scan: " ++ e), dest)
                | none =>
                    (.ok (), (dest.zip acc).map fun p => ⟨p.1.slicePtrOK, p.1.elemType, some p.2⟩)

/-! ## Value-string builder: `Buildstr`, `valuebuild`, `setbuild`,
`buildstr` -/

/-- A field value as read back through a cached `(offset, wire type)`
pair, classified by what the low-level `buildstr` does with it: a
`driver.Valuer` (carrying the `%#v` rendering of the value it returns),
or after one `reflect.Indirect`, a value of Bool, Int, Uint, Float
(carrying its `%g` rendering), or String kind, or a value of any other
kind (carrying its type string for the error message). -/
inductive GoVal where
  | valuer (rendered : GStr)
  | vbool (b : Bool)
  | vint (i : Int)
  | vuint (n : Nat)
  | vfloat (g : GStr)
  | vstring (s : GStr)
  | vother (tyStr : GStr)
  deriving DecidableEq

/-- A record instance handed to `Buildstr`, as the map from field
offsets to the values stored there. -/
abbrev Vals := List (Nat × GoVal)

/-- Reading the slot at a cached offset (defined for the offsets the
mapping can produce, which callers populate). -/
def readVal (inst : Vals) (off : Nat) : GoVal :=
  match inst with
  | [] => .vother (gs "uninitialized")
  | (o, v) :: rest => if o = off then v else readVal rest off

/-- The low-level `buildstr(b, s, v)`: append one `s`-prefixed literal
rendering of `v` to the builder, or fail on an unrenderable kind. -/
def buildstrGo (s : GStr) (v : GoVal) : GoResult GStr :=
  match v with
  | .valuer r => .ok (s ++ r)
  | .vbool b => .ok (s ++ (if b then gs "true" else gs "false"))
  | .vint i => .ok (s ++ intChars i)
  | .vuint n => .ok (s ++ natChars n)
  | .vfloat g => .ok (s ++ g)
  | .vstring str => .ok (s ++ goQuote str)
  | .vother t => .err (gs "type " ++ goQuote t ++ gs " cannot be valued")

/-- The marker entry's field-name list (`e.name.([]string)`; the
assertion cannot fail on entries `MapStruct` writes). -/
def EName.getStrs : EName → List GStr
  | .strs l => l
  | _ => []

/-- A field→column entry's column name (`m.name.(string)`). -/
def EName.getStr : EName → GStr
  | .str s => s
  | _ => []

/-- The field loop of `setbuild`: for each requested field, look up its
field→column entry, render `column=value`, comma-joined. -/
def setLoop (mp : Mapping) (stru : GStr) (inst : Vals) :
    List GStr → Nat → GStr → GoResult GStr
  | [], _, acc => .ok acc
  | n :: rest, j, acc =>
      let acc := if j > 0 then acc ++ [','] else acc
      match findm mp (gs "0." ++ stru ++ gs "." ++ n) with
      | none => .err (gs "Buildstr: " ++ goQuote stru ++ gs " has no field " ++ goQuote n)
      | some m =>
          match buildstrGo (m.name.getStr ++ ['=']) (readVal inst m.offset) with
          | .ok piece => setLoop mp stru inst rest (j + 1) (acc ++ piece)
          | .err e => .err (gs "Buildstr: " ++ e)
          | .crash e => .crash e

/-- Go `setbuild` (`Buildstr` on a single `*struct`): resolve the type's
marker entry, default the field list to the registered field order, and
emit `SET column=value,...`. -/
def setbuildGo (mp : Mapping) (stru : GStr) (inst : Vals)
    (field : List GStr) : GoResult GStr :=
  match findm mp stru with
  | none => .err (gs "Buildstr: " ++ goQuote stru ++ gs " has no mapping")
  | some e =>
      let field := if field.length = 0 then e.name.getStrs else field
      setLoop mp stru inst field 0 (gs "SET ")

/-- The column-list pass of `valuebuild`: `(col1,col2,...`, failing on
an unknown field. -/
def colLoop (mp : Mapping) (stru : GStr) :
    List GStr → Nat → GStr → GoResult GStr
  | [], _, acc => .ok acc
  | n :: rest, i, acc =>
      let acc := if i > 0 then acc ++ [','] else acc
      match findm mp (gs "0." ++ stru ++ gs "." ++ n) with
      | none => .err (gs "Buildstr: " ++ goQuote stru ++ gs " has no field " ++ goQuote n)
      | some m => colLoop mp stru rest (i + 1) (acc ++ m.name.getStr)

/-- The per-element field pass of `valuebuild`'s value loop: values of
one instance, comma-joined (the second mapping lookup is unchecked in
Go, the zero entry standing for its zero-value result). -/
def fieldLoop (mp : Mapping) (stru : GStr) (inst : Vals) :
    List GStr → Nat → GStr → GoResult GStr
  | [], _, acc => .ok acc
  | n :: rest, j, acc =>
      let acc := if j > 0 then acc ++ [','] else acc
      let m := (findm mp (gs "0." ++ stru ++ gs "." ++ n)).getD zeroEntry
      match buildstrGo [] (readVal inst m.offset) with
      | .ok piece => fieldLoop mp stru inst rest (j + 1) (acc ++ piece)
      | .err e => .err (gs "Buildstr: " ++ e)
      | .crash e => .crash e

/-- The element loop of `valuebuild`: reject a nil element by index,
join the element tuples with `),(`. -/
def valLoop (mp : Mapping) (stru : GStr) (field : List GStr) :
    List (Option Vals) → Nat → GStr → GoResult GStr
  | [], _, acc => .ok (acc ++ [')'])
  | e :: rest, i, acc =>
      match e with
      | none => .err (gs "Buildstr: data[" ++ natChars i ++ gs "] is nil")
      | some inst =>
          let acc := if i > 0 then acc ++ gs "),(" else acc
          match fieldLoop mp stru inst field 0 acc with
          | .ok acc2 => valLoop mp stru field rest (i + 1) acc2
          | .err e2 => .err e2
          | .crash e2 => .crash e2

/-- Go `valuebuild` (`Buildstr` on a `[]*struct`): resolve the marker
entry, default the field list, emit the column tuple, then one value
tuple per element. -/
def valuebuildGo (mp : Mapping) (stru : GStr) (xs : List (Option Vals))
    (field : List GStr) : GoResult GStr :=
  match findm mp stru with
  | none => .err (gs "Buildstr: " ++ goQuote stru ++ gs " has no mapping")
  | some e =>
      let field := if field.length = 0 then e.name.getStrs else field
      match colLoop mp stru field 0 ['('] with
      | .ok hdr => valLoop mp stru field xs 0 (hdr ++ gs ") VALUES (")
      | .err e2 => .err e2
      | .crash e2 => .crash e2

/-- The argument of `Buildstr` after its reflective shape dispatch: a
`[]*struct` (elements `none` when the pointer is nil), a `*struct`, or
anything else (carrying the type string of the error message). -/
inductive BData where
  | slice (stru : GStr) (xs : List (Option Vals))
  | single (stru : GStr) (inst : Vals)
  | other (tyStr : GStr)

/-- Go `Buildstr`: dispatch on the shape of `data`; an empty slice is
rejected before `valuebuild` runs. -/
def BuildstrGo (mp : Mapping) (data : BData) (field : List GStr) : GoResult GStr :=
  match data with
  | .slice stru xs =>
      if xs.length = 0 then .err (gs "Buildstr: data is nil")
      else valuebuildGo mp stru xs field
  | .single stru inst => setbuildGo mp stru inst field
  | .other t => .err (gs "Buildstr: argument 'data' bad type " ++ goQuote t)

/-! ## Concrete fixtures -/

/-- The spec's example record type `Item{ID int tagged col=id; Name string}`. -/
def ItemT : GoType :=
  .strukt (gs "Item")
    [(gs "ID", gs "col=id", 0, .prim (gs "int")),
     (gs "Name", gs "", 8, .prim (gs "string"))]

/-- The registry after registering `Item`. -/
def mpItem : Mapping := (MapStructGo [] [ItemT] []).2

/-- The marker entry of `Item` in `mpItem`. -/
def itemMark : entryT := ⟨.strs [gs "ID", gs "Name"], 0, none⟩

/-- An `Item` instance `{ID:5, Name:"x"}` as stored field values. -/
def itemRec : Vals := [(0, .vint 5), (8, .vstring (gs "x"))]

/-- Destination type `D1` with fields mapped to columns `a` and `b`. -/
def D1T : GoType :=
  .strukt (gs "D1")
    [(gs "A", gs "", 0, .prim (gs "string")),
     (gs "B", gs "", 8, .prim (gs "string"))]

/-- Destination type `D2` with field `C` explicitly mapped to column
`a`, colliding with `D1`'s first column. -/
def D2T : GoType :=
  .strukt (gs "D2") [(gs "C", gs "col=a", 0, .prim (gs "string"))]

/-- The registry after registering `D1` and `D2`. -/
def mpD : Mapping := (MapStructGo [] [D1T, D2T] []).2

/-- A driver conversion oracle that stores every raw value as-is. -/
def convId : ConvFn := fun _ v => .ok v

/-- An `Item` instance `{ID:1, Name:"a"}`. -/
def itemRec2 : Vals := [(0, .vint 1), (8, .vstring (gs "a"))]

/-- A natural type sample for the commutation witness. -/
def TnatT : GoType := .prim (gs "[]string")

/-- Its wire type sample. -/
def TwireT : GoType := .prim (gs "sqlaux.strslice")

/-- A record type with a field of the natural type. -/
def WrecT : GoType := .strukt (gs "W") [(gs "F", gs "", 0, TnatT)]

/-! ## Claim theorems -/

/-- C1: with destinations `D1` (columns `a`, `b`) and `D2` (a field
also mapped to column `a`) and result columns `[a, b, "", a]`,
`scanField` binds the first two columns to destination 0 (`D1`) at the
offsets of its fields, leaves the empty column as the unbound zero
entry while advancing to the next destination, and binds the final `a`
to destination 1 (`D2`) at its field's offset — not to `D1`. -/
theorem c1_delimiter_and_collision_binding :
    scanFieldGo mpD [gs "a", gs "b", gs "", gs "a"] [gs "D1", gs "D2"]
      = .ok [⟨.idx 0, 0, some (.prim (gs "string"))⟩,
             ⟨.idx 0, 8, some (.prim (gs "string"))⟩,
             zeroEntry,
             ⟨.idx 1, 0, some (.prim (gs "string"))⟩] := rfl

/-- C7 (counterexample): `Buildstr` in assignment mode on
`{ID:5, Name:"x"}` with explicit field list `["Name"]` does not return
the bare text `name="x"`: the output carries the `SET ` prefix written
by `setbuild`. -/
theorem c7_counterexample_not_bare_assignment :
    BuildstrGo mpItem (.single (gs "Item") itemRec) [gs "Name"]
      ≠ .ok (gs "name=\"x\"") := by decide

/-- C7 (amended): the same call returns exactly `SET name="x"` — the
single assignment clause for `Name` behind the `SET ` prefix, with no
clause for `id` even though `ID` is mapped. -/
theorem c7_setmode_explicit_field_output :
    BuildstrGo mpItem (.single (gs "Item") itemRec) [gs "Name"]
      = .ok (gs "SET name=\"x\"") := rfl

/-- C8: a field whose attribute string is the whitespace-separated
token `col` — the configured key with no separator and no value —
makes the tag scan panic on the out-of-range access `fc[1]`
(`strings.Split("col", "=")` has one element), and registration of a
struct containing such a field therefore panics rather than returning
a registration error. -/
theorem c8_tag_without_separator_panics :
    parseTag (gs "col") = .crash (gs "runtime error: index out of range [1] with length 1")
    ∧ MapStructGo [] [.strukt (gs "T") [(gs "F", gs "col", 0, .prim (gs "int"))]] []
      = (.crash (gs "runtime error: index out of range [1] with length 1"), []) :=
  ⟨rfl, rfl⟩

/-- C9: registering `R{A int; B int tagged col=BAD}` fails on field `B`
(uppercase tagged column), yet the registry keeps the column→field and
field→column entries already written for the earlier field `A`, while
the type marker entry `"R"` is never written — registration is not
atomic. -/
theorem c9_mapstruct_partial_failure_leaves_entries :
    (MapStructGo []
        [.strukt (gs "R")
          [(gs "A", gs "", 0, .prim (gs "int")),
           (gs "B", gs "col=BAD", 8, .prim (gs "int"))]] []).1
      = .err (gs "MapStruct: R.B bad tagged 'col'")
    ∧ findm (MapStructGo []
        [.strukt (gs "R")
          [(gs "A", gs "", 0, .prim (gs "int")),
           (gs "B", gs "col=BAD", 8, .prim (gs "int"))]] []).2 (gs "0.R.A")
      = some ⟨.str (gs "a"), 0, some (.prim (gs "int"))⟩
    ∧ findm (MapStructGo []
        [.strukt (gs "R")
          [(gs "A", gs "", 0, .prim (gs "int")),
           (gs "B", gs "col=BAD", 8, .prim (gs "int"))]] []).2 (gs "1.R.a")
      = some ⟨.nichts, 0, some (.prim (gs "int"))⟩
    ∧ findm (MapStructGo []
        [.strukt (gs "R")
          [(gs "A", gs "", 0, .prim (gs "int")),
           (gs "B", gs "col=BAD", 8, .prim (gs "int"))]] []).2 (gs "R")
      = none :=
  ⟨rfl, rfl, rfl, rfl⟩

/-- C6 (counterexample): the exported field `F` of
`R{F Inner tagged col=f}` has nested record type `Inner` (not
`time.Time`), yet registration does not traverse into `Inner`: it
treats `F` as a leaf, writing a field→column entry for `F` itself and
none for the inner field `G` — because an explicit tagged column name
suppresses the recursion. -/
theorem c6_counterexample_tagged_nested_field_is_leaf :
    (MapStructGo []
        [.strukt (gs "R")
          [(gs "F", gs "col=f", 0,
            .strukt (gs "Inner") [(gs "G", gs "", 0, .prim (gs "string"))])]] []).1
      = .ok ()
    ∧ findm (MapStructGo []
        [.strukt (gs "R")
          [(gs "F", gs "col=f", 0,
            .strukt (gs "Inner") [(gs "G", gs "", 0, .prim (gs "string"))])]] []).2
        (gs "0.R.F")
      = some ⟨.str (gs "f"), 0,
          some (.strukt (gs "Inner") [(gs "G", gs "", 0, .prim (gs "string"))])⟩
    ∧ findm (MapStructGo []
        [.strukt (gs "R")
          [(gs "F", gs "col=f", 0,
            .strukt (gs "Inner") [(gs "G", gs "", 0, .prim (gs "string"))])]] []).2
        (gs "0.R.F.G")
      = none :=
  ⟨rfl, rfl, rfl⟩


/-- C6 (amended): during registration, an exported field of nested
record type is traversed recursively exactly when its tag yields no
explicit column name and its type is not `time.Time`; a field of type
`time.Time` is treated as a scalar leaf both without and with a tagged
column name. -/
theorem c6_untagged_nested_traversal_time_leaf
    (tm : Typemap) (s fname ftag ftag2 : GStr) (b foff : Nat)
    (nm : GStr) (flds2 flds3 : List GoField) (m : Mapping) (c : GStr)
    (hexp : isExported fname = true) (htag : parseTag ftag = .ok none)
    (htag2 : parseTag ftag2 = .ok (some c)) :
    (nm ≠ gs "time.Time" →
      initmapF tm s b fname ftag foff (.strukt nm flds2) m
        = initmapFs tm (s ++ gs "." ++ fname) (b + foff) flds2 m)
    ∧ initmapF tm s b fname ftag foff (.strukt (gs "time.Time") flds3) m
        = initLeaf s fname (b + foff) (goLower fname)
            ((findt tm (.strukt (gs "time.Time") flds3)).getD
              (.strukt (gs "time.Time") flds3)) m
    ∧ initmapF tm s b fname ftag2 foff (.strukt (gs "time.Time") flds3) m
        = initLeaf s fname (b + foff) c
            ((findt tm (.strukt (gs "time.Time") flds3)).getD
              (.strukt (gs "time.Time") flds3)) m := by
  refine ⟨fun hne => ?_, ?_, ?_⟩
  · simp [initmapF, hexp, htag, hne]
  · simp [initmapF, hexp, htag]
  · simp [initmapF, hexp, htag2]

theorem c6_witness :
    initmapF [] (gs "R") 0 (gs "F") (gs "") 0
        (.strukt (gs "Inner") [(gs "G", gs "", 0, .prim (gs "string"))]) []
      = initmapFs [] (gs "R.F") 0 [(gs "G", gs "", 0, .prim (gs "string"))] []
    ∧ initmapF [] (gs "R") 0 (gs "F") (gs "") 0 (.strukt (gs "time.Time") []) []
      = initLeaf (gs "R") (gs "F") 0 (gs "f") (.strukt (gs "time.Time") []) [] := by
  have h := c6_untagged_nested_traversal_time_leaf [] (gs "R") (gs "F") (gs "")
    (gs "col=f") 0 0 (gs "Inner") [(gs "G", gs "", 0, .prim (gs "string"))] [] []
    (gs "f") (by decide) (by decide) (by decide)
  exact ⟨h.1 (by decide), h.2.1⟩

/-- C2: a non-empty result column whose stripped, lowercased name has
no mapping in the current destination advances exactly once: when no
next destination exists the scan fails with the unmapped-column error
naming the column; otherwise the single retry against the next
destination either binds the column there (index `j+1`) and continues
from that destination, or fails with the same error. -/
theorem c2_unmatched_column_single_retry
    (mp : Mapping) (ts : List GStr) (c : GStr) (rest : List GStr)
    (j : Nat) (stru : GStr)
    (hc : c ≠ [])
    (hmiss : findm mp (gs "1." ++ stru ++ gs "." ++ stripQualLower c) = none) :
    sfLoop mp ts (c :: rest) j stru =
      if j + 1 = ts.length then
        .err (gs "column " ++ goQuote (stripQualLower c) ++ gs " has no mapping")
      else
        match findm mp (gs "1." ++ ts.getD (j + 1) [] ++ gs "." ++ stripQualLower c) with
        | some v =>
            match sfLoop mp ts rest (j + 1) (ts.getD (j + 1) []) with
            | .ok r => .ok (⟨.idx (j + 1), v.offset, v.typ⟩ :: r)
            | other => other
        | none => .err (gs "column " ++ goQuote (stripQualLower c) ++ gs " has no mapping") := by
  simp only [sfLoop, if_neg hc, hmiss]

theorem c2_witness :
    sfLoop [] [gs "D1"] [gs "x"] 0 (gs "D1")
      = .err (gs "column \"x\" has no mapping") := by
  have h := c2_unmatched_column_single_retry [] [gs "D1"] (gs "x") [] 0 (gs "D1")
    (by decide) rfl
  simpa using h


/-- Writing back an all-empty accumulator sets every destination to the
empty (non-nil) slice. -/
theorem zip_replicate_write (dest : List Dest) :
    ((dest.zip (List.replicate dest.length ([] : List SInst))).map
        fun p => (⟨p.1.slicePtrOK, p.1.elemType, some p.2⟩ : Dest))
      = dest.map fun d => ⟨d.slicePtrOK, d.elemType, some []⟩ := by
  induction dest with
  | nil => rfl
  | cons d rest ih => simp [List.replicate_succ, ih]

/-- C4: with a non-empty, well-shaped destination list whose columns
all resolve, a cursor yielding zero rows (and no terminal error) makes
`Scan` succeed and overwrite every destination handle with an empty,
non-nil slice. -/
theorem c4_zero_rows_empty_containers
    (convert : ConvFn) (mp : Mapping) (cols : List GStr)
    (dest : List Dest) (ref : List entryT)
    (hne : dest ≠ [])
    (hshape : firstBad dest 0 = none)
    (href : scanFieldGo mp cols (dest.map fun d => d.elemType.goName) = .ok ref) :
    ScanGo convert mp ⟨cols, [], none⟩ dest
      = (.ok (), dest.map fun d => ⟨d.slicePtrOK, d.elemType, some []⟩) := by
  have h0 : dest.length ≠ 0 := by simpa using hne
  simp [ScanGo, h0, hshape, href, scanRowsGo, zip_replicate_write]

theorem c4_witness :
    ScanGo convId mpD ⟨[gs "a", gs "b", gs "", gs "a"], [], none⟩
        [⟨true, D1T, none⟩, ⟨true, D2T, some [[(3, gs "old")]]⟩]
      = (.ok (), [⟨true, D1T, some []⟩, ⟨true, D2T, some []⟩]) := by
  have h := c4_zero_rows_empty_containers convId mpD [gs "a", gs "b", gs "", gs "a"]
    [⟨true, D1T, none⟩, ⟨true, D2T, some [[(3, gs "old")]]⟩]
    [⟨.idx 0, 0, some (.prim (gs "string"))⟩,
     ⟨.idx 0, 8, some (.prim (gs "string"))⟩,
     zeroEntry,
     ⟨.idx 1, 0, some (.prim (gs "string"))⟩]
    (List.cons_ne_nil _ _) rfl rfl
  simpa using h

/-- C5: whenever `Scan` returns an error — no destinations, bad
destination shape, unmapped column, row-decode failure, or terminal
cursor error — every caller-supplied destination handle is returned
exactly as it was: the accumulated partial results are never written
back. -/
theorem c5_error_leaves_dest_untouched
    (convert : ConvFn) (mp : Mapping) (rows : Rows) (dest : List Dest)
    (e : GStr) (h : (ScanGo convert mp rows dest).1 = .err e) :
    (ScanGo convert mp rows dest).2 = dest := by
  by_cases h0 : dest.length = 0
  · simp [ScanGo, h0]
  · rcases hfb : firstBad dest 0 with _ | i
    · rcases hsf : scanFieldGo mp rows.columns (dest.map fun d => d.elemType.goName) with ref | er | er
      · rcases hsr : scanRowsGo convert ref dest.length rows.data
            (List.replicate dest.length []) with acc | er | er
        · rcases herr : rows.err with _ | er2
          · simp [ScanGo, h0, hfb, hsf, hsr, herr] at h
          · simp [ScanGo, h0, hfb, hsf, hsr, herr]
        · simp [ScanGo, h0, hfb, hsf, hsr]
        · simp [ScanGo, h0, hfb, hsf, hsr]
      · simp [ScanGo, h0, hfb, hsf]
      · simp [ScanGo, h0, hfb, hsf]
    · simp [ScanGo, h0, hfb]

theorem c5_witness :
    (ScanGo convId [] ⟨[], [], none⟩ []).2 = [] :=
  c5_error_leaves_dest_untouched convId [] ⟨[], [], none⟩ []
    (gs "Scan: no dest argument") rfl


/-- Success of the per-element field pass does not depend on the start
index or accumulated prefix. -/
theorem fieldLoop_ok_shift (mp : Mapping) (stru : GStr) (inst : Vals)
    (ns : List GStr) : ∀ (j : Nat) (acc : GStr) (j2 : Nat) (acc2 : GStr),
    (∃ out, fieldLoop mp stru inst ns j2 acc2 = .ok out) →
    ∃ out2, fieldLoop mp stru inst ns j acc = .ok out2 := by
  induction ns with
  | nil => intro j acc j2 acc2 _; exact ⟨_, rfl⟩
  | cons n rest ih =>
      intro j acc j2 acc2 h
      rcases h with ⟨out, hout⟩
      rw [fieldLoop] at hout
      rcases hb : buildstrGo []
          (readVal inst ((findm mp (gs "0." ++ stru ++ gs "." ++ n)).getD zeroEntry).offset) with
        piece | e | e
      · rw [hb] at hout
        rw [fieldLoop, hb]
        exact ih (j + 1) _ (j2 + 1) _ ⟨out, hout⟩
      · rw [hb] at hout; exact absurd hout (by simp)
      · rw [hb] at hout; exact absurd hout (by simp)

/-- The element loop of `valuebuild` reaches a nil element whose
predecessors all render, and reports its index. -/
theorem valLoop_reaches_nil (mp : Mapping) (stru : GStr) (fl : List GStr)
    (post : List (Option Vals)) :
    ∀ (pre : List (Option Vals)) (i : Nat) (acc : GStr),
    (∀ x ∈ pre, ∃ inst, x = some inst ∧
      ∃ out, fieldLoop mp stru inst fl 0 [] = .ok out) →
    valLoop mp stru fl (pre ++ none :: post) i acc
      = .err (gs "Buildstr: data[" ++ natChars (i + pre.length) ++ gs "] is nil") := by
  intro pre
  induction pre with
  | nil => intro i acc _; simp [valLoop]
  | cons x pre2 ih =>
      intro i acc hpre
      rcases hpre x (by simp) with ⟨inst, rfl, hrok⟩
      rw [List.cons_append, valLoop]
      rcases fieldLoop_ok_shift mp stru inst fl 0
          (if i > 0 then acc ++ gs "),(" else acc) 0 [] hrok with ⟨out2, hout2⟩
      simp only [hout2]
      rw [ih (i + 1) out2 (fun y hy => hpre y (by simp [hy]))]
      have harith : i + 1 + pre2.length = i + (some inst :: pre2).length := by
        simp [List.length_cons]
        omega
      rw [harith]

/-- C10: `Buildstr` in tuple mode rejects a zero-length sequence with
an error rather than returning an empty string; and a sequence whose
first nil element follows elements that all render successfully is
rejected with the nil-element error reporting that element's index. -/
theorem c10_tuple_empty_and_nil_element_errors
    (mp : Mapping) (stru : GStr) (field : List GStr)
    (pre post : List (Option Vals)) (e0 : entryT) (hdr : GStr)
    (hreg : findm mp stru = some e0)
    (hcols : colLoop mp stru
      (if field.length = 0 then e0.name.getStrs else field) 0 ['('] = .ok hdr)
    (hpre : ∀ x ∈ pre, ∃ inst, x = some inst ∧
      ∃ out, fieldLoop mp stru inst
        (if field.length = 0 then e0.name.getStrs else field) 0 [] = .ok out) :
    BuildstrGo mp (.slice stru []) field = .err (gs "Buildstr: data is nil")
    ∧ BuildstrGo mp (.slice stru (pre ++ none :: post)) field
      = .err (gs "Buildstr: data[" ++ natChars pre.length ++ gs "] is nil") := by
  constructor
  · rfl
  · rw [BuildstrGo]
    rw [if_neg (by simp)]
    rw [valuebuildGo, hreg]
    simp only [hcols]
    rw [valLoop_reaches_nil mp stru _ post pre 0 (hdr ++ gs ") VALUES (") hpre]
    simp

theorem c10_witness :
    BuildstrGo mpItem (.slice (gs "Item") []) [] = .err (gs "Buildstr: data is nil")
    ∧ BuildstrGo mpItem (.slice (gs "Item") [some itemRec2, none]) []
      = .err (gs "Buildstr: data[1] is nil") := by
  have h := c10_tuple_empty_and_nil_element_errors mpItem (gs "Item") []
    [some itemRec2] [] itemMark (gs "(id,name") rfl rfl
    (by intro x hx
        simp only [List.mem_singleton] at hx
        exact ⟨itemRec2, hx, ⟨gs "1,\"a\"", rfl⟩⟩)
  exact ⟨h.1, h.2⟩

/-! ## C3: order independence of `MapType` and `MapStruct` -/

/-- If a typemap lookup hits, the result is a stored value. -/
theorem findt_mem {tm : Typemap} {q w : GoType} (h : findt tm q = some w) :
    ∃ p ∈ tm, p.2 = w := by
  induction tm with
  | nil => simp [findt] at h
  | cons p rest ih =>
      rw [findt] at h
      split at h
      · exact ⟨p, by simp, by simpa using h⟩
      · rcases ih h with ⟨p2, hmem, hw⟩
        exact ⟨p2, by simp [hmem], hw⟩

/-- Inserting an absent key appends it. -/
theorem inst_append {tm : Typemap} {T S : GoType} (hk : findt tm T = none) :
    inst' tm T S = tm ++ [(T, S)] := by
  induction tm with
  | nil => rfl
  | cons p rest ih =>
      rw [findt] at hk
      rw [inst']
      split at hk
      · exact absurd hk (by simp)
      · next hb =>
          rw [if_neg hb, ih hk]
          simp

/-- Lookup in an appended-singleton typemap. -/
theorem findt_append (tm : Typemap) (T S q : GoType) :
    findt (tm ++ [(T, S)]) q
      = match findt tm q with
        | some w => some w
        | none => if q.beq T then some S else none := by
  induction tm with
  | nil => simp [findt]
  | cons p rest ih =>
      rw [List.cons_append, findt, findt]
      split
      · rfl
      · exact ih

theorem rewriteT_map (o s' : GoType) (m : Mapping) :
    rewriteT o s' m = m.map fun kv => (kv.1, rewE o s' kv.2) := by
  unfold rewriteT rewE
  induction m with
  | nil => rfl
  | cons kv rest ih =>
      simp only [List.map_cons, ih]
      by_cases h : typIs kv.2.typ o = true <;> simp [h]

/-- Lookup commutes with the registry rewrite. -/
theorem findm_rewriteT (o s' : GoType) (m : Mapping) (k : GStr) :
    findm (rewriteT o s' m) k = (findm m k).map (rewE o s') := by
  rw [rewriteT_map]
  induction m with
  | nil => rfl
  | cons kv rest ih =>
      rw [List.map_cons, findm, findm]
      split
      · rfl
      · exact ih

/-- Insert commutes with the registry rewrite. -/
theorem insm_rewriteT (o s' : GoType) (m : Mapping) (k : GStr) (v : entryT) :
    insm (rewriteT o s' m) k (rewE o s' v) = rewriteT o s' (insm m k v) := by
  rw [rewriteT_map, rewriteT_map]
  induction m with
  | nil => rfl
  | cons kv rest ih =>
      rw [List.map_cons, insm, insm]
      split
      · next h => simp [h]
      · next h => simp only [List.map_cons, ih, if_neg h]

/-- How the wire type of a leaf field changes when the substitution
`T → S` is added to a typemap that neither has `T` as a key nor as a
value: it is exactly the rewrite `MapType` applies. -/
theorem nt_subst {tm : Typemap} {T S : GoType}
    (hk : findt tm T = none) (hv : ∀ p ∈ tm, p.2.beq T = false) (q : GoType) :
    (findt (inst' tm T S) q).getD q
      = (if ((findt tm q).getD q).beq T then S else (findt tm q).getD q) := by
  rw [inst_append hk, findt_append]
  rcases hq : findt tm q with _ | w
  · by_cases hb : q.beq T <;> simp [hb]
  · rcases findt_mem hq with ⟨p, hmem, hw⟩
    have hwT := hv p hmem
    rw [hw] at hwT
    simp [hwT]

/-- Running `initLeaf` with the substituted wire type on the rewritten registry
equals the rewrite of `initLeaf` with the original wire type. -/
theorem initLeaf_subst (T S : GoType) (s fname col : GStr) (off : Nat)
    (ea eb : GoType) (heb : eb = if ea.beq T then S else ea) (m : Mapping) :
    initLeaf s fname off col eb (rewriteT T S m)
      = ((initLeaf s fname off col ea m).1,
         rewriteT T S (initLeaf s fname off col ea m).2) := by
  have hrew : rewE T S ⟨.str col, off, some ea⟩ = ⟨.str col, off, some eb⟩ := by
    rw [rewE, heb]
    by_cases hb : ea.beq T = true <;> simp [typIs, hb]
  have hrew2 : rewE T S ⟨.nichts, off, some ea⟩ = ⟨.nichts, off, some eb⟩ := by
    rw [rewE, heb]
    by_cases hb : ea.beq T = true <;> simp [typIs, hb]
  unfold initLeaf
  by_cases hcol : col = [] ∨ goLower col ≠ col
  · simp [hcol]
  · rw [if_neg hcol, if_neg hcol]
    simp only [← hrew, insm_rewriteT, ← hrew2]
    rw [findm_rewriteT]
    rcases hdup : findm (insm m (gs "0." ++ s ++ gs "." ++ fname)
        ⟨.str col, off, some ea⟩) (match splitOuter s with
          | none => gs "1." ++ s ++ gs "." ++ col
          | some (outer, _) => gs "1." ++ outer ++ gs "." ++ col) with _ | v
    · simp [insm_rewriteT]
    · simp

mutual

/-- Walking a field list with the substitution `T → S` already in the
typemap, over the rewritten registry, gives the rewrite of walking it
with the original typemap. -/
theorem initmapFs_subst (T S : GoType) (tm : Typemap)
    (hk : findt tm T = none) (hv : ∀ p ∈ tm, p.2.beq T = false)
    (flds : List GoField) :
    ∀ (s : GStr) (b : Nat) (m : Mapping),
    initmapFs (inst' tm T S) s b flds (rewriteT T S m)
      = ((initmapFs tm s b flds m).1, rewriteT T S (initmapFs tm s b flds m).2) :=
  match flds with
  | [] => by
      intro s b m
      simp [initmapFs]
  | (fname, ftag, foff, fty) :: rest => by
      intro s b m
      have hF := initmapF_subst T S tm hk hv fty fname ftag foff s b m
      rcases hr : initmapF tm s b fname ftag foff fty m with ⟨r1, m1⟩
      rw [hr] at hF
      rcases r1 with fs1 | e | e
      · have hRest := initmapFs_subst T S tm hk hv rest s b m1
        rcases hr2 : initmapFs tm s b rest m1 with ⟨r2, m2⟩
        rw [hr2] at hRest
        rcases r2 with fs2 | e2 | e2 <;>
          simp [initmapFs, hr, hF, hr2, hRest]
      · simp [initmapFs, hr, hF]
      · simp [initmapFs, hr, hF]
  termination_by structural flds

/-- One field step under the substitution `T → S`. -/
theorem initmapF_subst (T S : GoType) (tm : Typemap)
    (hk : findt tm T = none) (hv : ∀ p ∈ tm, p.2.beq T = false)
    (fty : GoType) :
    ∀ (fname ftag : GStr) (foff : Nat) (s : GStr) (b : Nat) (m : Mapping),
    initmapF (inst' tm T S) s b fname ftag foff fty (rewriteT T S m)
      = ((initmapF tm s b fname ftag foff fty m).1,
         rewriteT T S (initmapF tm s b fname ftag foff fty m).2) :=
  match fty with
  | .prim p => by
      intro fname ftag foff s b m
      rcases hexp : isExported fname with _ | _
      · simp [initmapF, hexp]
      · have hnt := nt_subst hk hv (S := S) (.prim p)
        rcases hpt : parseTag ftag with o | e | e
        · rcases o with _ | c
          · have hL := initLeaf_subst T S s fname (goLower fname) (b + foff) _ _ hnt m
            simp [initmapF, hexp, hpt, hL]
          · have hL := initLeaf_subst T S s fname c (b + foff) _ _ hnt m
            simp [initmapF, hexp, hpt, hL]
        · simp [initmapF, hexp, hpt]
        · simp [initmapF, hexp, hpt]
  | .strukt nm flds2 => by
      intro fname ftag foff s b m
      rcases hexp : isExported fname with _ | _
      · simp [initmapF, hexp]
      · have hnt := nt_subst hk hv (S := S) (.strukt nm flds2)
        rcases hpt : parseTag ftag with o | e | e
        · rcases o with _ | c
          · by_cases htime : nm = gs "time.Time"
            · subst htime
              have hL := initLeaf_subst T S s fname (goLower fname) (b + foff) _ _ hnt m
              simp [initmapF, hexp, hpt, hL]
            · have hFs := initmapFs_subst T S tm hk hv flds2
                (s ++ (gs "." ++ fname)) (b + foff) m
              simp [initmapF, hexp, hpt, htime, hFs]
          · have hL := initLeaf_subst T S s fname c (b + foff) _ _ hnt m
            simp [initmapF, hexp, hpt, hL]
        · simp [initmapF, hexp, hpt]
        · simp [initmapF, hexp, hpt]
  termination_by structural fty

end

/-- Go `MapStruct` of one sample under the substitution `T → S`. -/
theorem mapstruct_subst (T S : GoType) (tm : Typemap)
    (hk : findt tm T = none) (hv : ∀ p ∈ tm, p.2.beq T = false)
    (R : GoType) (m : Mapping) :
    MapStructGo (inst' tm T S) [R] (rewriteT T S m)
      = ((MapStructGo tm [R] m).1, rewriteT T S (MapStructGo tm [R] m).2) := by
  rcases R with n | ⟨s, flds⟩
  · simp [MapStructGo]
  · by_cases hs : s = []
    · simp [MapStructGo, hs]
    · rcases hfind : findm m s with _ | v
      · have hW := initmapFs_subst T S tm hk hv flds s 0 m
        rcases hr : initmapFs tm s 0 flds m with ⟨r1, m1⟩
        rw [hr] at hW
        rcases r1 with fs | e | e
        · have hins := insm_rewriteT T S m1 s ⟨.strs fs, 0, none⟩
          rw [show rewE T S (⟨.strs fs, 0, none⟩ : entryT) = ⟨.strs fs, 0, none⟩ from by
            simp [rewE, typIs]] at hins
          simp [MapStructGo, hs, hfind, findm_rewriteT, hr, hW, hins]
        · simp [MapStructGo, hs, hfind, findm_rewriteT, hr, hW]
        · simp [MapStructGo, hs, hfind, findm_rewriteT, hr, hW]
      · simp [MapStructGo, hs, hfind, findm_rewriteT]

/-- C3: for a natural type `T` and wire type `S` that `MapType`
accepts (convertible, `T` not yet substituted, and `T` not itself a
wire type of an earlier substitution), registering a record type `R`
before the `MapType(T,S)` call or after it produces the same final
registry — the same column→field and field→column entries, with the
substituted wire type on every affected entry — the same substitution
table, and the same `MapStruct` outcome; both `MapType` calls
succeed. -/
theorem c3_maptype_mapstruct_commute
    (conv : GoType → GoType → Bool) (T S R : GoType)
    (tm : Typemap) (m : Mapping)
    (hconv : conv T S = true)
    (hk : findt tm T = none)
    (hv : ∀ p ∈ tm, p.2.beq T = false) :
    (MapTypeGo conv T S tm (MapStructGo tm [R] m).2).1 = .ok ()
    ∧ (MapTypeGo conv T S tm m).1 = .ok ()
    ∧ (MapStructGo tm [R] m).1
      = (MapStructGo (MapTypeGo conv T S tm m).2.1 [R] (MapTypeGo conv T S tm m).2.2).1
    ∧ (MapTypeGo conv T S tm (MapStructGo tm [R] m).2).2.1
      = (MapTypeGo conv T S tm m).2.1
    ∧ (MapTypeGo conv T S tm (MapStructGo tm [R] m).2).2.2
      = (MapStructGo (MapTypeGo conv T S tm m).2.1 [R] (MapTypeGo conv T S tm m).2.2).2 := by
  have hmt : ∀ x : Mapping, MapTypeGo conv T S tm x
      = (.ok (), inst' tm T S, rewriteT T S x) := by
    intro x
    simp [MapTypeGo, hk, hconv]
  have hms := mapstruct_subst T S tm hk hv R m
  refine ⟨by rw [hmt], by rw [hmt], ?_, by rw [hmt, hmt], ?_⟩
  · rw [hmt]
    simp [hms]
  · rw [hmt, hmt]
    simp [hms]

theorem c3_witness :
    (MapTypeGo (fun _ _ => true) TnatT TwireT []
        (MapStructGo [] [WrecT] []).2).1 = .ok ()
    ∧ (MapTypeGo (fun _ _ => true) TnatT TwireT [] []).1 = .ok ()
    ∧ (MapStructGo [] [WrecT] []).1
      = (MapStructGo (MapTypeGo (fun _ _ => true) TnatT TwireT [] []).2.1 [WrecT]
          (MapTypeGo (fun _ _ => true) TnatT TwireT [] []).2.2).1
    ∧ (MapTypeGo (fun _ _ => true) TnatT TwireT []
        (MapStructGo [] [WrecT] []).2).2.1
      = (MapTypeGo (fun _ _ => true) TnatT TwireT [] []).2.1
    ∧ (MapTypeGo (fun _ _ => true) TnatT TwireT []
        (MapStructGo [] [WrecT] []).2).2.2
      = (MapStructGo (MapTypeGo (fun _ _ => true) TnatT TwireT [] []).2.1 [WrecT]
          (MapTypeGo (fun _ _ => true) TnatT TwireT [] []).2.2).2 :=
  c3_maptype_mapstruct_commute (fun _ _ => true) TnatT TwireT WrecT [] []
    rfl rfl (by simp)

end Sqlaux
